import Mathlib

/-!
Shallow embedding of `matgendb/vv/report.py` (Python 2): the report data
model (`Header`, `Table`, report tree), the HTML/JSON/Markdown formatters
and the `Emailer`, together with proofs about them.

Conventions of the embedding:
* Python cell/metadata values are modelled by `Value` (integers and strings).
* A method that can raise returns the post-state paired with an optional
  `PyErr` (when the raise happens before any mutation the post-state equals
  the pre-state, exactly as in Python), or an `Except PyErr` result.
* Python's `list.sort(key=itemgetter(c))` is a stable sort by the value in
  column `c`; any two stable sorts agree, so it is embedded as
  `List.mergeSort` with the column comparison.
-/

namespace Matgendb

/-- Python values appearing in headers and table cells; integers and strings
cover the behaviour under study. -/
inductive Value where
  | int (n : Int)
  | str (s : String)
deriving DecidableEq

/-- Python `str(v)`. -/
def Value.pyStr : Value → String
  | .int n => toString n
  | .str s => s

/-- Python truthiness `bool(v)`: the integer `0` and the empty string are
falsy, everything else is truthy. -/
def Value.truthy : Value → Bool
  | .int n => decide (n ≠ 0)
  | .str s => decide (s ≠ "")

/-- Python `v1 <= v2` under CPython 2's cross-type ordering: numbers compare
below strings, same-type values compare naturally. -/
def Value.le : Value → Value → Bool
  | .int m, .int n => decide (m ≤ n)
  | .int _, .str _ => true
  | .str _, .int _ => false
  | .str a, .str b => decide (a ≤ b)

/-- Python exceptions raised by the code under study. -/
inductive PyErr where
  | valueError (msg : String)
  | typeError (msg : String)
deriving DecidableEq

/-- The `Header` class: a title plus an ordered sequence of (key, value)
pairs (`self._kv`), appended to by `add` and iterated in insertion order. -/
structure Header where
  title : String
  kv : List (String × Value)
deriving DecidableEq

/-- Constructor `Header(title)`: empty key/value list. -/
def Header.init (title : String) : Header := ⟨title, []⟩

/-- The `Table` class: column names, rows, arity `self._width` and the
running per-column maxima `self._max_col_widths`. -/
structure Table where
  colnames : List String
  rows : List (List Value)
  width : Nat
  max_col_widths : List Nat
deriving DecidableEq

/-- Constructor `Table(colnames)`: no rows, `width = len(colnames)`, widths
initialised to `map(len, colnames)` (a list, this is Python 2). -/
def Table.init (colnames : List String) : Table :=
  { colnames := colnames
    rows := []
    width := colnames.length
    max_col_widths := colnames.map String.length }

/-- `Table.add(values)`: raises `ValueError` when the arity differs from
`self._width` (before any mutation, so the table is unchanged); otherwise
appends the row and bumps each column's running maximum width to
`max(current, len(str(value)))`.  The index loop writing
`self._max_col_widths[i]` is rendered as `zipWith`, which coincides with it
because a validated row has exactly `width` entries and the widths list has
length `width` for every table built through the constructor. -/
def Table.add (t : Table) (values : List Value) : Table × Option PyErr :=
  if values.length ≠ t.width then
    (t, some (.valueError
      ("expected " ++ toString t.width ++ " values, got " ++ toString values.length)))
  else
    ({ t with
        rows := t.rows ++ [values]
        max_col_widths :=
          List.zipWith (fun w v => max w v.pyStr.length) t.max_col_widths values },
      none)

/-- Property `Table.nrow`. -/
def Table.nrow (t : Table) : Nat := t.rows.length

/-- Property `Table.ncol` (returns `self._width`). -/
def Table.ncol (t : Table) : Nat := t.width

/-- Property `Table.column_names`. -/
def Table.column_names (t : Table) : List String := t.colnames

/-- Property `Table.column_widths` (returns `self._max_col_widths`). -/
def Table.column_widths (t : Table) : List Nat := t.max_col_widths

/-- A table obtained from the constructor by a sequence of `add` calls
(an `add` that raises leaves the table as it was, as in the source). -/
def buildTable (cols : List String) (rows : List (List Value)) : Table :=
  rows.foldl (fun t r => (t.add r).1) (Table.init cols)

/-- Claim C2: a row of the right arity is accepted by `Table.add` and grows
`nrow` by exactly one; a row of any other arity makes `add` raise
`ValueError` (with the source's message) and leaves `nrow` unchanged. -/
theorem table_add_arity (t : Table) (r : List Value) :
    (r.length = t.ncol → (t.add r).2 = none ∧ (t.add r).1.nrow = t.nrow + 1) ∧
    (r.length ≠ t.ncol →
      (t.add r).2 = some (.valueError
        ("expected " ++ toString t.width ++ " values, got " ++ toString r.length)) ∧
      (t.add r).1.nrow = t.nrow) := by
  constructor
  · intro h
    simp [Table.add, Table.ncol, Table.nrow] at h ⊢
    simp [h]
  · intro h
    simp [Table.ncol] at h
    simp [Table.add, Table.nrow, h]

/-- Witness for C2 at a concrete table: a 2-column table accepts a 2-value
row (row count 0 becomes 1) and rejects a 1-value row unchanged. -/
theorem table_add_arity_witness :
    (((Table.init ["id", "count"]).add [Value.int 1, Value.int 5]).2 = none ∧
      ((Table.init ["id", "count"]).add [Value.int 1, Value.int 5]).1.nrow =
        (Table.init ["id", "count"]).nrow + 1) ∧
    (((Table.init ["id", "count"]).add [Value.int 7]).2 = some (.valueError
        ("expected " ++ toString (Table.init ["id", "count"]).width ++
          " values, got " ++ toString [Value.int 7].length)) ∧
      ((Table.init ["id", "count"]).add [Value.int 7]).1.nrow =
        (Table.init ["id", "count"]).nrow) :=
  ⟨(table_add_arity (Table.init ["id", "count"]) [Value.int 1, Value.int 5]).1 (by decide),
   (table_add_arity (Table.init ["id", "count"]) [Value.int 7]).2 (by decide)⟩

/-- Helper: `getD` through the width-update `zipWith` of `Table.add`. -/
theorem getD_zipWith_max (ws : List Nat) (vs : List Value) (i : Nat)
    (h1 : i < ws.length) (h2 : i < vs.length) :
    (List.zipWith (fun w v => max w v.pyStr.length) ws vs).getD i 0 =
      max (ws.getD i 0) ((vs.getD i (Value.str "")).pyStr.length) := by
  induction ws generalizing vs i with
  | nil => simp at h1
  | cons w ws ih =>
    cases vs with
    | nil => simp at h2
    | cons v vs =>
      cases i with
      | zero => rfl
      | succ i =>
        simp only [List.zipWith_cons_cons, List.getD_cons_succ]
        exact ih vs i (by simpa using h1) (by simpa using h2)

/-- Helper: `foldl max` is at least its initial value. -/
theorem le_foldl_max (l : List Nat) (a : Nat) : a ≤ l.foldl max a := by
  induction l generalizing a with
  | nil => exact Nat.le_refl a
  | cons x l ih => exact Nat.le_trans (Nat.le_max_left a x) (ih (max a x))

/-- Helper: `foldl max` dominates every list element. -/
theorem mem_le_foldl_max (l : List Nat) (a x : Nat) (h : x ∈ l) : x ≤ l.foldl max a := by
  induction l generalizing a with
  | nil => simp at h
  | cons y l ih =>
    rcases List.mem_cons.mp h with rfl | h
    · exact Nat.le_trans (Nat.le_max_right a x) (le_foldl_max l (max a x))
    · exact ih (max a y) h

/-- Helper: a successful `add` preserves `width`. -/
theorem Table.add_fst_width (t : Table) (r : List Value) : ((t.add r).1).width = t.width := by
  unfold Table.add
  split <;> rfl

/-- Helper: how one `add` step transforms the running column widths. -/
theorem Table.add_fst_widths (t : Table) (r : List Value) (h : r.length = t.width) :
    ((t.add r).1).max_col_widths =
      List.zipWith (fun w v => max w v.pyStr.length) t.max_col_widths r := by
  unfold Table.add
  simp [h]

/-- Helper: running maxima after folding `add` over a list of well-arity rows,
stated for an arbitrary starting table whose widths list has length `width`. -/
theorem foldl_add_widths (rows : List (List Value)) : ∀ (t : Table),
    (∀ r ∈ rows, r.length = t.width) → t.max_col_widths.length = t.width →
    ∀ i, i < t.width →
    ((rows.foldl (fun t r => (t.add r).1) t).max_col_widths.getD i 0 =
      (rows.map (fun r => (r.getD i (Value.str "")).pyStr.length)).foldl max
        (t.max_col_widths.getD i 0)) := by
  induction rows with
  | nil => intro t _ _ i _; rfl
  | cons r rs ih =>
    intro t hr hw i hi
    have harr : r.length = t.width := hr r (List.mem_cons_self r rs)
    have hstep := Table.add_fst_widths t r harr
    have hw' : ((t.add r).1).max_col_widths.length = ((t.add r).1).width := by
      rw [hstep, Table.add_fst_width, List.length_zipWith, hw, harr]
      exact Nat.min_self t.width
    have hr' : ∀ q ∈ rs, q.length = ((t.add r).1).width := by
      intro q hq
      rw [Table.add_fst_width]
      exact hr q (List.mem_cons_of_mem r hq)
    have hi' : i < ((t.add r).1).width := by rw [Table.add_fst_width]; exact hi
    have := ih ((t.add r).1) hr' hw' i hi'
    simp only [List.foldl_cons, List.map_cons]
    rw [this, hstep, getD_zipWith_max _ _ _ (by omega) (by omega)]

/-- Helper: `getD` through `map String.length` on the column names. -/
theorem getD_map_length (cols : List String) (i : Nat) (hi : i < cols.length) :
    (cols.map String.length).getD i 0 = (cols.getD i "").length := by
  induction cols generalizing i with
  | nil => simp at hi
  | cons c cs ihc =>
    cases i with
    | zero => rfl
    | succ i => exact ihc i (by simpa using hi)

/-- Claim C3: in a table built from column names by successful `add` calls,
`column_widths[i]` is exactly the maximum of the column name's length and
`len(str(v))` over every value `v` added in column `i`; in particular it
dominates the rendered length of every added value. -/
theorem column_widths_spec (cols : List String) (rows : List (List Value))
    (h : ∀ r ∈ rows, r.length = cols.length) (i : Nat) (hi : i < cols.length) :
    ((buildTable cols rows).column_widths.getD i 0 =
      (rows.map (fun r => (r.getD i (Value.str "")).pyStr.length)).foldl max
        (cols.getD i "").length) ∧
    (∀ r ∈ rows, (r.getD i (Value.str "")).pyStr.length ≤
      (buildTable cols rows).column_widths.getD i 0) := by
  have hinit : (Table.init cols).max_col_widths.getD i 0 = (cols.getD i "").length :=
    getD_map_length cols i hi
  have hmain := foldl_add_widths rows (Table.init cols) (by simpa [Table.init] using h)
    (by simp [Table.init]) i (by simpa [Table.init] using hi)
  rw [hinit] at hmain
  refine ⟨hmain, ?_⟩
  intro r hr
  rw [show (buildTable cols rows).column_widths = (buildTable cols rows).max_col_widths from rfl]
  rw [show buildTable cols rows = rows.foldl (fun t q => (t.add q).1) (Table.init cols) from rfl]
  rw [hmain]
  exact mem_le_foldl_max _ _ _ (List.mem_map_of_mem _ hr)

/-- Witness for C3 on a concrete table with columns `id`, `count` and two
rows: in column 0 the width is the max of `len "id"` and the value lengths. -/
theorem column_widths_spec_witness :
    ((buildTable ["id", "count"] [[Value.int 1, Value.int 5], [Value.int 100, Value.str "x"]]).column_widths.getD 0 0 =
      ([[Value.int 1, Value.int 5], [Value.int 100, Value.str "x"]].map
        (fun r => (r.getD 0 (Value.str "")).pyStr.length)).foldl max
        (["id", "count"].getD 0 "").length) ∧
    (∀ r ∈ [[Value.int 1, Value.int 5], [Value.int 100, Value.str "x"]],
      (r.getD 0 (Value.str "")).pyStr.length ≤
        (buildTable ["id", "count"] [[Value.int 1, Value.int 5], [Value.int 100, Value.str "x"]]).column_widths.getD 0 0) :=
  column_widths_spec ["id", "count"]
    [[Value.int 1, Value.int 5], [Value.int 100, Value.str "x"]]
    (by decide) 0 (by decide)

/-- Transitivity of the Python value comparison. -/
theorem Value.le_trans' : ∀ (a b c : Value), Value.le a b → Value.le b c → Value.le a c := by
  intro a b c hab hbc
  cases a <;> cases b <;> cases c <;>
    simp [Value.le] at hab hbc ⊢ <;> first
      | omega
      | exact le_trans hab hbc

/-- Totality of the Python value comparison. -/
theorem Value.le_total' : ∀ (a b : Value), Value.le a b || Value.le b a := by
  intro a b
  cases a <;> cases b <;> simp [Value.le] <;> first
    | omega
    | exact le_total _ _

/-- Comparison of two rows by the value in column `c`, the embedding of the
sort key `itemgetter(colnum)` (well-formed rows always reach column `c`). -/
def rowLe (c : Nat) (a b : List Value) : Bool :=
  Value.le (a.getD c (Value.str "")) (b.getD c (Value.str ""))

/-- Transitivity of the row comparison. -/
theorem rowLe_trans (c : Nat) :
    ∀ (a b d : List Value), rowLe c a b → rowLe c b d → rowLe c a d := by
  intro a b d hab hbd
  exact Value.le_trans' _ _ _ hab hbd

/-- Totality of the row comparison. -/
theorem rowLe_total (c : Nat) : ∀ (a b : List Value), rowLe c a b || rowLe c b a := by
  intro a b
  exact Value.le_total' _ _

/-- Python `list.index(x)`: index of the first occurrence, `none` when the
`ValueError` branch is taken. -/
def listIndex (n : String) : List String → Option Nat
  | [] => none
  | c :: cs => if c = n then some 0 else (listIndex n cs).map (· + 1)

/-- Helper: a found index is within the list. -/
theorem listIndex_lt_length (n : String) :
    ∀ (l : List String) (c : Nat), listIndex n l = some c → c < l.length := by
  intro l
  induction l with
  | nil => intro c h; simp [listIndex] at h
  | cons x xs ih =>
    intro c h
    by_cases hx : x = n
    · simp [listIndex, hx] at h
      simp [List.length_cons]
      omega
    · simp [listIndex, hx] at h
      obtain ⟨d, hd, rfl⟩ := h
      have := ih d hd
      simp
      omega

/-- Argument of `Table.sortby`: a column name or a 0-based index (a Python
`int`, so possibly negative). -/
inductive ColSel where
  | name (s : String)
  | index (i : Int)

/-- `Table.sortby(name_or_index)`: resolves a name through `list.index`
(raising `ValueError` when absent), or bounds-checks an integer index; then
sorts the rows in place by the chosen column, `self._rows.sort(key=
itemgetter(colnum))`.  CPython's sort is stable, so it is embedded as
`List.mergeSort` with the column comparison `rowLe`. -/
def Table.sortby (t : Table) (sel : ColSel) : Except PyErr Table :=
  match sel with
  | .name n =>
    match listIndex n t.colnames with
    | none => .error (.valueError
        ("column " ++ n ++ " not in " ++ String.intercalate ", " t.colnames))
    | some c => .ok { t with rows := t.rows.mergeSort (rowLe c) }
  | .index i =>
    if i < 0 ∨ (t.width : Int) ≤ i then
      .error (.valueError ("index out of range 0.." ++ toString ((t.width : Int) - 1)))
    else
      .ok { t with rows := t.rows.mergeSort (rowLe i.toNat) }

/-- Claim C4: for every valid 0-based column index `c`, `sortby` succeeds
and yields a permutation of the rows that is non-decreasing in column `c`
and stable (every column-sorted sublist of the input is still a sublist of
the output); and for every column name that `list.index` resolves to `c`,
`sortby` by that name produces exactly the same table. -/
theorem sortby_stable_sorted (t : Table) (c : Nat) (hc : c < t.width) :
    ∃ t', t.sortby (.index (c : Int)) = .ok t' ∧
      t'.colnames = t.colnames ∧
      List.Perm t'.rows t.rows ∧
      List.Pairwise (fun a b => rowLe c a b = true) t'.rows ∧
      (∀ p : List (List Value), List.Pairwise (fun a b => rowLe c a b = true) p →
        List.Sublist p t.rows → List.Sublist p t'.rows) ∧
      (∀ n, listIndex n t.colnames = some c → t.sortby (.name n) = .ok t') := by
  refine ⟨{ t with rows := t.rows.mergeSort (rowLe c) }, ?_, rfl, ?_, ?_, ?_, ?_⟩
  · have hbound : ¬((c : Int) < 0 ∨ (t.width : Int) ≤ (c : Int)) := by omega
    simp [Table.sortby, hbound, hc]
  · exact List.mergeSort_perm t.rows (rowLe c)
  · exact List.sorted_mergeSort (rowLe_trans c) (rowLe_total c) t.rows
  · intro p hp hsub
    exact List.sublist_mergeSort (rowLe_trans c) (rowLe_total c) hp hsub
  · intro n hn
    simp [Table.sortby, hn]

/-- Witness for C4 on the spec's example table (`id`, `count`, rows
`[[1,5],[1,3],[2,1]]`), column index 0 (to which the name `id` resolves). -/
theorem sortby_stable_sorted_witness :
    ∃ t', (buildTable ["id", "count"]
        [[Value.int 1, Value.int 5], [Value.int 1, Value.int 3],
          [Value.int 2, Value.int 1]]).sortby (.index (0 : Int)) = .ok t' ∧
      t'.colnames = (buildTable ["id", "count"]
        [[Value.int 1, Value.int 5], [Value.int 1, Value.int 3],
          [Value.int 2, Value.int 1]]).colnames ∧
      List.Perm t'.rows (buildTable ["id", "count"]
        [[Value.int 1, Value.int 5], [Value.int 1, Value.int 3],
          [Value.int 2, Value.int 1]]).rows ∧
      List.Pairwise (fun a b => rowLe 0 a b = true) t'.rows ∧
      (∀ p : List (List Value), List.Pairwise (fun a b => rowLe 0 a b = true) p →
        List.Sublist p (buildTable ["id", "count"]
          [[Value.int 1, Value.int 5], [Value.int 1, Value.int 3],
            [Value.int 2, Value.int 1]]).rows → List.Sublist p t'.rows) ∧
      (∀ n, listIndex n (buildTable ["id", "count"]
          [[Value.int 1, Value.int 5], [Value.int 1, Value.int 3],
            [Value.int 2, Value.int 1]]).colnames = some 0 →
        (buildTable ["id", "count"]
          [[Value.int 1, Value.int 5], [Value.int 1, Value.int 3],
            [Value.int 2, Value.int 1]]).sortby (.name n) = .ok t') :=
  sortby_stable_sorted
    (buildTable ["id", "count"]
      [[Value.int 1, Value.int 5], [Value.int 1, Value.int 3],
        [Value.int 2, Value.int 1]])
    0 (by decide)

/-- A sub-section (`cond_section` in the formatters): a `ReportSection` whose
body is a `Table`.  The formatters assume the concrete well-formed
three-level shape report → section → sub-section-with-table. -/
structure CondSection where
  header : Header
  body : Table
deriving DecidableEq

/-- A section: a `ReportSection` used as a container, iterating over its
sub-sections. -/
structure Section where
  header : Header
  conds : List CondSection
deriving DecidableEq

/-- The `Report` class: a `ReportHeader` plus the ordered sections. -/
structure Report where
  header : Header
  sections : List Section
deriving DecidableEq

/-- The test `prev_key and key == prev_key` in `HTMLFormatter.format`:
`prev_key` starts out as Python `None` (falsy); once set it is a cell value,
and the conjunction short-circuits on its truthiness. -/
def prevMatches (p : Option Value) (key : Value) : Bool :=
  match p with
  | none => false
  | some pv => pv.truthy && decide (key = pv)

/-- The row loop of `HTMLFormatter.format`, lines 232-245: carries
`(prev_key, i)`, and for each table row first rebinds the loop variable to a
copy (`row = list(row)`).  When the previous key is truthy and equal to the
current id-column value, the id cell of the *copy* is blanked and the stripe
counter is kept; otherwise a new stripe begins.  Returns the emitted
`(i, displayed row)` pairs together with the post-loop state of the table's
row storage (which the loop never writes: the assignment
`row[self._idcol] = ''` hits the copy). -/
def stripeLoop (idcol : Nat) (p : Option Value) (i : Nat) :
    List (List Value) → List (Nat × List Value) × List (List Value)
  | [] => ([], [])
  | row :: rest =>
    let rowC := row
    let key := rowC.getD idcol (Value.str "")
    if prevMatches p key then
      let out := stripeLoop idcol p i rest
      ((i, rowC.set idcol (Value.str "")) :: out.1, row :: out.2)
    else
      let out := stripeLoop idcol (some key) (i + 1) rest
      ((i + 1, rowC) :: out.1, row :: out.2)

/-- `('even', 'odd')[i % 2]`. -/
def rowClass (i : Nat) : String :=
  if i % 2 = 0 then "even" else "odd"

/-- The `<dt>`/`<dd>` lines a header's key/value pairs contribute. -/
def Header.dlLines (h : Header) : List String :=
  h.kv.foldr (fun p acc =>
    ("<dt>" ++ p.1 ++ "</dt>") :: ("<dd>" ++ p.2.pyStr ++ "</dd>") :: acc) []

/-- The lines `HTMLFormatter.format` emits for one sub-section's table:
header row of `<th>` cells, then the striped body rows. -/
def htmlTableLines (idcol : Nat) (t : Table) : List String :=
  ["<table>", "<tr>"] ++
    t.colnames.map (fun nm => "<th>" ++ nm ++ "</th>") ++ ["</tr>"] ++
    ((stripeLoop idcol none 0 t.rows).1.map (fun pr =>
      ("<tr class=\"" ++ rowClass pr.1 ++ "\">") ::
        pr.2.map (fun v => "<td>" ++ v.pyStr ++ "</td>") ++ ["</tr>"])).flatten ++
    ["</table>"]

/-- The lines for one sub-section: `<h3>` heading, definition list, table. -/
def htmlCondLines (idcol : Nat) (cs : CondSection) : List String :=
  ("<h3>" ++ cs.header.title ++ "</h3>") :: "<dl class=\"subsectmeta\">" ::
    cs.header.dlLines ++ ["</dl>"] ++ htmlTableLines idcol cs.body

/-- The lines for one section: `<h2>` heading, definition list, sub-sections. -/
def htmlSectionLines (idcol : Nat) (s : Section) : List String :=
  ("<h2>" ++ s.header.title ++ "</h2>") :: "<dl class=\"sectmeta\">" ::
    s.header.dlLines ++ ["</dl>"] ++ (s.conds.map (htmlCondLines idcol)).flatten

/-- `HTMLFormatter.format(report)`: the document's line list joined with the
configured separator; `css` is emitted when non-empty (Python truthiness). -/
def HTMLFormatter.format (sep : String) (idcol : Nat) (css : String) (r : Report) : String :=
  String.intercalate sep
    (["<!DOCTYPE html>", "<html>",
      "<title>" ++ r.header.title ++ "</title>", "<head>"] ++
      (if css ≠ "" then ["<style>", css, "</style>"] else []) ++
      ["</head>", "<body>", "<h1>" ++ r.header.title ++ "</h1>",
        "<dl class=\"rptmeta\">"] ++
      r.header.dlLines ++ ["</dl>"] ++
      (r.sections.map (htmlSectionLines idcol)).flatten ++
      ["</body>", "</html>"])

/-- Claim C5: on id-column values `[A, A, B, B, B, C]` (distinct, non-empty,
pre-sorted) the HTML row loop produces exactly 3 stripes — stripe indices
`1, 1, 2, 2, 2, 3`, i.e. row classes odd, odd, even, even, even, odd — and
displays the id value only on rows 1, 3 and 6, emitting a blank id cell on
rows 2, 4 and 5. -/
theorem html_striping (A B C : Value)
    (hA : A.truthy = true) (hB : B.truthy = true) (_hC : C.truthy = true)
    (hAB : A ≠ B) (hBC : B ≠ C) (_hAC : A ≠ C) :
    (stripeLoop 0 none 0 [[A], [A], [B], [B], [B], [C]]).1 =
      [(1, [A]), (1, [Value.str ""]), (2, [B]), (2, [Value.str ""]),
        (2, [Value.str ""]), (3, [C])] ∧
    ((stripeLoop 0 none 0 [[A], [A], [B], [B], [B], [C]]).1.map
        (fun pr => rowClass pr.1)) =
      ["odd", "odd", "even", "even", "even", "odd"] := by
  have hBA : ¬(B = A) := fun h => hAB h.symm
  have hCB : ¬(C = B) := fun h => hBC h.symm
  constructor
  · simp [stripeLoop, prevMatches, hA, hB, hBA, hCB, List.set]
  · simp [stripeLoop, prevMatches, hA, hB, hBA, hCB, rowClass]

/-- Witness for C5 with the concrete id values `"A"`, `"B"`, `"C"`. -/
theorem html_striping_witness :
    (stripeLoop 0 none 0 [[Value.str "A"], [Value.str "A"], [Value.str "B"],
        [Value.str "B"], [Value.str "B"], [Value.str "C"]]).1 =
      [(1, [Value.str "A"]), (1, [Value.str ""]), (2, [Value.str "B"]),
        (2, [Value.str ""]), (2, [Value.str ""]), (3, [Value.str "C"])] ∧
    ((stripeLoop 0 none 0 [[Value.str "A"], [Value.str "A"], [Value.str "B"],
        [Value.str "B"], [Value.str "B"], [Value.str "C"]]).1.map
        (fun pr => rowClass pr.1)) =
      ["odd", "odd", "even", "even", "even", "odd"] :=
  html_striping (Value.str "A") (Value.str "B") (Value.str "C")
    (by decide) (by decide) (by decide) (by decide) (by decide) (by decide)

/-- Claim C9: a row is blanked (run continued) exactly when the previously
displayed id value is truthy and equal to the current one; consequently a
row whose id value is falsy always starts a new stripe and displays its
value, whatever precedes it — equal consecutive falsy id values are never
collapsed. -/
theorem falsy_id_starts_stripe (idcol : Nat) (p : Option Value) (i : Nat)
    (row : List Value) (rest : List (List Value))
    (hf : (row.getD idcol (Value.str "")).truthy = false) :
    (prevMatches p (row.getD idcol (Value.str "")) = true ↔
      ∃ pv, p = some pv ∧ pv.truthy = true ∧ row.getD idcol (Value.str "") = pv) ∧
    (stripeLoop idcol p i (row :: rest)).1 =
      (i + 1, row) ::
        (stripeLoop idcol (some (row.getD idcol (Value.str ""))) (i + 1) rest).1 := by
  constructor
  · cases p with
    | none => simp [prevMatches]
    | some pv => simp [prevMatches, And.comm]
  · have hcond : prevMatches p (row.getD idcol (Value.str "")) = false := by
      cases p with
      | none => rfl
      | some pv =>
        simp only [prevMatches, Bool.and_eq_false_iff]
        by_cases hpv : row.getD idcol (Value.str "") = pv
        · left
          rw [← hpv]
          exact hf
        · right
          simpa using hpv
    simp only [List.getD_eq_getElem?_getD] at hcond
    simp [stripeLoop, hcond]

/-- Witness for C9: previous id `"x"` displayed, current id the falsy empty
string — the row still starts a new stripe and shows its (empty) value. -/
theorem falsy_id_starts_stripe_witness :
    (prevMatches (some (Value.str "x")) ([Value.str "", Value.int 7].getD 0 (Value.str "")) = true ↔
      ∃ pv, some (Value.str "x") = some pv ∧ pv.truthy = true ∧
        [Value.str "", Value.int 7].getD 0 (Value.str "") = pv) ∧
    (stripeLoop 0 (some (Value.str "x")) 1
        [[Value.str "", Value.int 7], [Value.str "", Value.int 8]]).1 =
      (2, [Value.str "", Value.int 7]) ::
        (stripeLoop 0 (some ([Value.str "", Value.int 7].getD 0 (Value.str ""))) 2
          [[Value.str "", Value.int 8]]).1 :=
  falsy_id_starts_stripe 0 (some (Value.str "x")) 1
    [Value.str "", Value.int 7] [[Value.str "", Value.int 8]] (by decide)

/-- Python `'{:Ns}'.format(s)`: left-justify `s` in a field of minimum width
`N`, padding on the right with spaces (no truncation when `s` is longer). -/
def pyLjust (s : String) (n : Nat) : String :=
  s ++ String.mk (List.replicate (n - s.length) ' ')

/-- The per-column segments of `MarkdownFormatter._fixed_width`: for each
`(w, v)` in `zip(widths, values)`, `str(v)` left-justified to `w + 1`. -/
def fixedWidthCells (values : List Value) (widths : List Nat) : List String :=
  List.zipWith (fun w v => pyLjust v.pyStr (w + 1)) widths values

/-- `MarkdownFormatter._fixed_width(values, widths)`: the segments
concatenated with no separator. -/
def fixed_width (values : List Value) (widths : List Nat) : String :=
  String.join (fixedWidthCells values widths)

/-- Python dict insertion used by `Header.to_dict` (`{k: v for k, v in
self._kv}`): later values for a key overwrite earlier ones.  CPython 2's
dict iteration order is implementation defined; it is fixed here as first-
insertion key order, which no proved property depends on. -/
def dictInsert (d : List (String × Value)) (k : String) (v : Value) :
    List (String × Value) :=
  if d.any (fun p => p.1 = k) then
    d.map (fun p => if p.1 = k then (k, v) else p)
  else
    d ++ [(k, v)]

/-- `Header.to_dict()`: the lossy dict projection of the key/value pairs. -/
def Header.to_dict (h : Header) : List (String × Value) :=
  h.kv.foldl (fun d p => dictInsert d p.1 p.2) []

/-- `MarkdownFormatter._mapdump(d)`: comma-joined `key=value` pairs. -/
def mapdump (d : List (String × Value)) : String :=
  String.intercalate ", " (d.map (fun p => p.1 ++ "=" ++ p.2.pyStr))

/-- The lines `MarkdownFormatter.format` emits for one sub-section: heading,
`Info:` line (a `Header` object is always truthy in Python, having no
`__len__` or `__nonzero__`, so the line is always present), the
`Violations:` banner, then the indented fixed-width table. -/
def mdCondLines (cond : CondSection) : List String :=
  ("\n### " ++ cond.header.title ++ " ###\n") ::
    ("Info: " ++ mapdump cond.header.to_dict) ::
    "\nViolations:\n" ::
    ("    " ++ fixed_width (cond.body.colnames.map Value.str) cond.body.max_col_widths) ::
    cond.body.rows.map (fun row => "    " ++ fixed_width row cond.body.max_col_widths)

/-- The lines for one section: heading, `Info:` line, sub-sections. -/
def mdSectionLines (s : Section) : List String :=
  ("\n## " ++ s.header.title ++ " ##\n") ::
    ("Info: " ++ mapdump s.header.to_dict) ::
    (s.conds.map mdCondLines).flatten

/-- `MarkdownFormatter.format(report)`: all lines joined with newlines. -/
def MarkdownFormatter.format (r : Report) : String :=
  String.intercalate "\n"
    (("# " ++ r.header.title ++ " #\n") ::
      ("Info: " ++ mapdump r.header.to_dict) ::
      (r.sections.map mdSectionLines).flatten)

/-- Helper: each segment of `_fixed_width` is the left-justified rendering,
at least one character wider than the given width. -/
theorem fixedWidthCells_getD (ws : List Nat) (vs : List Value) (i : Nat)
    (hi : i < (fixedWidthCells vs ws).length) :
    ws.getD i 0 + 1 ≤ ((fixedWidthCells vs ws).getD i "").length ∧
    (fixedWidthCells vs ws).getD i "" =
      (vs.getD i (Value.str "")).pyStr ++
        String.mk (List.replicate
          (ws.getD i 0 + 1 - (vs.getD i (Value.str "")).pyStr.length) ' ') := by
  induction ws generalizing vs i with
  | nil => simp [fixedWidthCells] at hi
  | cons w ws ih =>
    cases vs with
    | nil => simp [fixedWidthCells] at hi
    | cons v vs =>
      cases i with
      | zero =>
        constructor
        · show w + 1 ≤ (pyLjust v.pyStr (w + 1)).length
          simp [pyLjust]
          omega
        · rfl
      | succ i =>
        have hi' : i < (fixedWidthCells vs ws).length := by
          simpa [fixedWidthCells] using hi
        simpa [fixedWidthCells] using ih vs i hi'

/-- Claim C6: every data line the fixed-width formatter emits for a table
row (`indent + _fixed_width(row, column_widths)` in
`MarkdownFormatter.format`) is made of per-column segments that are each at
least `column_widths[i] + 1` characters wide and hold the value's string
representation left-aligned, right-padded with spaces. -/
theorem fixed_width_segments (t : Table) (r : List Value) (_hr : r ∈ t.rows)
    (i : Nat) (hi : i < (fixedWidthCells r t.column_widths).length) :
    t.column_widths.getD i 0 + 1 ≤
      ((fixedWidthCells r t.column_widths).getD i "").length ∧
    (fixedWidthCells r t.column_widths).getD i "" =
      (r.getD i (Value.str "")).pyStr ++
        String.mk (List.replicate
          (t.column_widths.getD i 0 + 1 - (r.getD i (Value.str "")).pyStr.length) ' ') :=
  fixedWidthCells_getD t.column_widths r i hi

/-- Witness for C6: the first segment of the first data row of a concrete
built table. -/
theorem fixed_width_segments_witness :
    (buildTable ["id", "count"]
        [[Value.int 1, Value.int 5]]).column_widths.getD 0 0 + 1 ≤
      ((fixedWidthCells [Value.int 1, Value.int 5]
        (buildTable ["id", "count"] [[Value.int 1, Value.int 5]]).column_widths).getD 0 "").length ∧
    (fixedWidthCells [Value.int 1, Value.int 5]
        (buildTable ["id", "count"] [[Value.int 1, Value.int 5]]).column_widths).getD 0 "" =
      ([Value.int 1, Value.int 5].getD 0 (Value.str "")).pyStr ++
        String.mk (List.replicate
          ((buildTable ["id", "count"] [[Value.int 1, Value.int 5]]).column_widths.getD 0 0 + 1 -
            ([Value.int 1, Value.int 5].getD 0 (Value.str "")).pyStr.length) ' ') :=
  fixed_width_segments (buildTable ["id", "count"] [[Value.int 1, Value.int 5]])
    [Value.int 1, Value.int 5] (by decide) 0 (by decide)

/-- The Python object tree `JSONFormatter.format` hands to `json.dumps`:
plain values, lists and dicts, plus the `Header` and `Table` instances that
the built structure embeds directly (`info=report.header`,
`violations=cs.body`). -/
inductive PyVal where
  | val (v : Value)
  | headerObj (h : Header)
  | tableObj (t : Table)
  | list (xs : List PyVal)
  | dict (kvs : List (String × PyVal))

/-- JSON documents, the parsed form of `json.dumps` output. -/
inductive JSON where
  | num (n : Int)
  | str (s : String)
  | arr (xs : List JSON)
  | obj (kvs : List (String × JSON))

mutual

/-- Modelled from the spec: `MongoJSONEncoder` lives in `matgendb/util.py`,
which is not under `src/`; per the spec it is "the external document-encoding
collaborator" supplying "whatever primitive/document types appear in cell
values".  Converting `Header` objects to their dict projection and `Table`
objects to their `values` projection is what the spec requires of the
encoder a JSON formatter uses, and in `src/` that capability is exactly what
`ReportJSONEncoder.default` adds on top of `MongoJSONEncoder` (handling
`isinstance Header` and `isinstance Table` before delegating); so
`MongoJSONEncoder` itself encodes primitives, lists and dicts and raises
`TypeError` (encoded as `none`) on a `Header` or `Table` object. -/
def mongoEncode : PyVal → Option JSON
  | .val (.int n) => some (.num n)
  | .val (.str s) => some (.str s)
  | .headerObj _ => none
  | .tableObj _ => none
  | .list xs => (mongoEncodeList xs).map JSON.arr
  | .dict kvs => (mongoEncodeDict kvs).map JSON.obj

/-- Elementwise encoding of a Python list by `MongoJSONEncoder`. -/
def mongoEncodeList : List PyVal → Option (List JSON)
  | [] => some []
  | x :: xs =>
    match mongoEncode x with
    | none => none
    | some j => (mongoEncodeList xs).map (j :: ·)

/-- Entrywise encoding of a Python dict by `MongoJSONEncoder`. -/
def mongoEncodeDict : List (String × PyVal) → Option (List (String × JSON))
  | [] => some []
  | (k, x) :: xs =>
    match mongoEncode x with
    | none => none
    | some j => (mongoEncodeDict xs).map ((k, j) :: ·)

end

/-- The nested dict built in `JSONFormatter.format`, lines 260-275:
`{title, info, sections: [{title, info, conditions: [{title, info,
violations}]}]}` with `info` bound to the `Header` objects themselves and
`violations` to the `Table` object itself. -/
def JSONFormatter.formatObj (r : Report) : PyVal :=
  .dict [("title", .val (.str r.header.title)),
         ("info", .headerObj r.header),
         ("sections", .list (r.sections.map (fun s =>
            .dict [("title", .val (.str s.header.title)),
                   ("info", .headerObj s.header),
                   ("conditions", .list (s.conds.map (fun cs =>
                      .dict [("title", .val (.str cs.header.title)),
                             ("info", .headerObj cs.header),
                             ("violations", .tableObj cs.body)])))])))]

/-- `JSONFormatter.format(report)`: `json.dumps(obj, indent=self._indent,
cls=MongoJSONEncoder)` — note the source passes `MongoJSONEncoder`, not the
`ReportJSONEncoder` defined directly below it.  Serialising and parsing back
is the identity on JSON documents, so the result is modelled as the parsed
document, or the `TypeError` that `json.dumps` raises. -/
def JSONFormatter.format (r : Report) : Except PyErr JSON :=
  match mongoEncode (JSONFormatter.formatObj r) with
  | none => .error (.typeError "is not JSON serializable")
  | some j => .ok j

/-- Claim C1 (refuted; the code is at fault): `JSONFormatter.format` never
produces a JSON document at all — the very first `Header` reached (the
report's own, under the key `info`) makes the `MongoJSONEncoder` passed as
`cls` raise `TypeError`, for every report, well-formed or not.  The encoder
that handles `Header` and `Table`, `ReportJSONEncoder`, is defined in the
source but never used. -/
theorem json_format_raises (r : Report) :
    JSONFormatter.format r = .error (.typeError "is not JSON serializable") := by
  simp [JSONFormatter.format, JSONFormatter.formatObj, mongoEncode, mongoEncodeDict]

/-- Python `str.split(sep)` for a one-character separator, on the character
list. -/
def splitCharList (sep : Char) : List Char → List (List Char)
  | [] => [[]]
  | c :: cs =>
    if c = sep then
      [] :: splitCharList sep cs
    else
      match splitCharList sep cs with
      | [] => [[c]]
      | g :: gs => (c :: g) :: gs

/-- Python `fmt.split('/')`. -/
def pySplitSlash (s : String) : List String :=
  (splitCharList '/' s.toList).map (fun l => String.mk l)

/-- Outcome of the SMTP transport (`smtplib.SMTP(...)`, `sendmail`, `quit`):
either the whole sequence succeeds — `sendmail` reporting some set of
refused recipients that the code never looks at — or some step raises. -/
inductive TransportResult where
  | ok (refused : List String)
  | err (msg : String)

/-- `Emailer.send(text, fmt)`: first unpacks `fmt.split('/')` into exactly
two names (raising `ValueError` outside any handler when the split does not
have exactly two parts), builds the message, then inside `try` connects,
sends and quits; on success the return value is `len(self._recipients)`, on
any transport exception the error is logged and the return value is `0`.
The message text plays no role in the control flow and is omitted. -/
def Emailer.send (recipients : List String) (fmt : String)
    (tr : TransportResult) : Except PyErr Nat :=
  let parts := pySplitSlash fmt
  if parts.length = 2 then
    match tr with
    | .ok _ => .ok recipients.length
    | .err _ => .ok 0
  else if parts.length < 2 then
    .error (.valueError "need more than 1 value to unpack")
  else
    .error (.valueError "too many values to unpack")

/-- Claim C7: for a format spec with exactly one `/`, `Emailer.send` never
propagates a transport failure — it returns 0 — and on transport success it
returns the number of configured recipients, whatever set of recipients the
transport actually refused. -/
theorem emailer_send_transport (recipients : List String) (fmt : String)
    (h : (pySplitSlash fmt).length = 2) :
    (∀ refused, Emailer.send recipients fmt (.ok refused) = .ok recipients.length) ∧
    (∀ msg, Emailer.send recipients fmt (.err msg) = .ok 0) := by
  constructor
  · intro refused
    simp [Emailer.send, h]
  · intro msg
    simp [Emailer.send, h]

/-- Witness for C7 at `"text/html"` with two recipients. -/
theorem emailer_send_transport_witness :
    (∀ refused, Emailer.send ["a@x", "b@y"] "text/html" (.ok refused) =
      .ok ["a@x", "b@y"].length) ∧
    (∀ msg, Emailer.send ["a@x", "b@y"] "text/html" (.err msg) = .ok 0) :=
  emailer_send_transport ["a@x", "b@y"] "text/html" (by decide)

/-- Claim C10: when the format spec does not split into exactly two parts on
`/`, `Emailer.send` raises `ValueError` to the caller; the error does not
depend on the transport, which is therefore never attempted, and in
particular the return-0-on-failure behaviour does not apply. -/
theorem emailer_send_bad_fmt (recipients : List String) (fmt : String)
    (h : (pySplitSlash fmt).length ≠ 2) :
    ∃ msg, ∀ tr, Emailer.send recipients fmt tr = .error (.valueError msg) := by
  by_cases hlt : (pySplitSlash fmt).length < 2
  · exact ⟨"need more than 1 value to unpack", fun tr => by simp [Emailer.send, h, hlt]⟩
  · exact ⟨"too many values to unpack", fun tr => by simp [Emailer.send, h, hlt]⟩

/-- Witness for C10 at the slash-free spec `"texthtml"`. -/
theorem emailer_send_bad_fmt_witness :
    ∃ msg, ∀ tr, Emailer.send ["a@x"] "texthtml" tr = .error (.valueError msg) :=
  emailer_send_bad_fmt ["a@x"] "texthtml" (by decide)

/-- Helper: the HTML row loop leaves the table's row storage untouched — the
only assignment in it, `row[self._idcol] = ''`, writes the fresh copy made
by `row = list(row)`. -/
theorem stripeLoop_state (idcol : Nat) (p : Option Value) (i : Nat)
    (rows : List (List Value)) : (stripeLoop idcol p i rows).2 = rows := by
  induction rows generalizing p i with
  | nil => rfl
  | cons row rest ih =>
    simp only [stripeLoop]
    split
    · simp [ih]
    · simp [ih]

/-- `HTMLFormatter.format` as a state transformer on the report tree: the
produced document together with the post-call tree, in which each table's
row storage is whatever the row loop left behind. -/
def HTMLFormatter.formatS (sep : String) (idcol : Nat) (css : String)
    (r : Report) : String × Report :=
  (HTMLFormatter.format sep idcol css r,
    { r with sections := r.sections.map (fun s =>
        { s with conds := s.conds.map (fun cs =>
            { cs with body := { cs.body with
                rows := (stripeLoop idcol none 0 cs.body.rows).2 } }) }) })

/-- `MarkdownFormatter.format` as a state transformer: its body contains no
assignment to any report component, so the post-call tree is the input. -/
def MarkdownFormatter.formatS (r : Report) : String × Report :=
  (MarkdownFormatter.format r, r)

/-- `JSONFormatter.format` as a state transformer: it only reads the tree
(building the nested dict and raising inside `json.dumps` mutate nothing). -/
def JSONFormatter.formatS (r : Report) : Except PyErr JSON × Report :=
  (JSONFormatter.format r, r)

/-- Claim C8: formatting with any of the three formatters leaves the report
tree — headers with their titles and key/value sequences, tables with their
column names, widths and rows in order — exactly as it was. -/
theorem formatters_no_mutation (sep : String) (idcol : Nat) (css : String)
    (r : Report) :
    (HTMLFormatter.formatS sep idcol css r).2 = r ∧
    (MarkdownFormatter.formatS r).2 = r ∧
    (JSONFormatter.formatS r).2 = r := by
  refine ⟨?_, rfl, rfl⟩
  simp [HTMLFormatter.formatS, stripeLoop_state]

end Matgendb
